import Mathlib

/-!
Shallow embedding of the NanoClaw agent-orchestration core (TypeScript) in
Lean 4, together with theorems settling the specification claims about it.

Strings manipulated by the launcher (captured stdout/stderr and the payload
extraction) are modelled as `List Char`; JavaScript's `String.prototype`
operations (`indexOf`, `slice`, `trim`, `split('\n')`) are given faithful
definitions on that representation.  Stateful code (the in-memory session map,
the provider store, the task table rows) is modelled by explicit state
passing: each mutator is a pure function from the old state to the new state,
and "persisted" means the returned state (every mutation in the source is
followed by a synchronous write of exactly that state).
-/

namespace NanoClaw

/-- Whitespace characters removed by JavaScript `String.prototype.trim` (the
ones that occur in the launcher's streams: space, newline, tab, carriage
return). -/
def wsChar (c : Char) : Bool :=
  (c == ' ') || (c == '\n') || (c == '\t') || (c == '\r')

/-- The opening-brace character, `'\x7b'`. -/
def braceOpen : Char := Char.ofNat 123

/-- The closing-brace character, `'\x7d'`. -/
def braceClose : Char := Char.ofNat 125

/-- Drop leading whitespace (the left half of JS `trim`). -/
def trimL (l : List Char) : List Char := l.dropWhile wsChar

/-- Drop trailing whitespace (the right half of JS `trim`). -/
def trimR (l : List Char) : List Char := (trimL l.reverse).reverse

/-- JavaScript `String.prototype.trim`: drop whitespace at both ends. -/
def trim (l : List Char) : List Char := trimR (trimL l)

/-- JavaScript `hay.indexOf(pat)`: position of the first occurrence of `pat`
in `hay`, `none` for `-1`. -/
def idxOf? (hay pat : List Char) : Option Nat :=
  match hay with
  | [] => if pat = [] then some 0 else none
  | _ :: t => if pat.isPrefixOf hay then some 0 else (idxOf? t pat).map (· + 1)

/-- JavaScript `s.slice(i, j)` for `0 ≤ i, j` (clamped, empty when `j ≤ i`). -/
def sliceList (l : List Char) (i j : Nat) : List Char := (l.drop i).take (j - i)

/-- JavaScript `s.slice(-n)`: the last `min n (length)` characters. -/
def takeRight (l : List Char) (n : Nat) : List Char := l.drop (l.length - n)

/-- JavaScript `s.split('\n')` on the character-list representation.  The
result is never empty. -/
def splitLines : List Char → List (List Char)
  | [] => [[]]
  | c :: rest =>
    if c = '\n' then [] :: splitLines rest
    else
      match splitLines rest with
      | l :: ls => (c :: l) :: ls
      | [] => [[c]]

/-- JavaScript `lines[lines.length - 1]` for `lines = s.split('\n')`. -/
def lastLineOf (l : List Char) : List Char := (splitLines l).getLastD []

/-- JavaScript `x || d` on an optional numeric config field (`0` is falsy). -/
def jsOrNat (o : Option Nat) (d : Nat) : Nat :=
  match o with
  | some n => if n = 0 then d else n
  | none => d

/-- JavaScript truthiness of an optional string field (`undefined` and `""`
are falsy). -/
def jsTruthy (o : Option String) : Bool :=
  match o with
  | some s => !s.isEmpty
  | none => false

/-! ## Sentinel markers

From `src/container-utils.ts` (the launcher side) and
`container/agent-runner/src/index.ts` (the sandbox side). -/

/-- `OUTPUT_START_MARKER` in `src/container-utils.ts`. -/
def OUTPUT_START_MARKER : String := "---NANOCLAW_OUTPUT_START---"

/-- `OUTPUT_END_MARKER` in `src/container-utils.ts`. -/
def OUTPUT_END_MARKER : String := "---NANOCLAW_OUTPUT_END---"

/-- `OUTPUT_START_MARKER` in `container/agent-runner/src/index.ts` (the agent
runner emits this line before its final JSON object). -/
def RUNNER_OUTPUT_START_MARKER : String := "---NANOCLAW_OUTPUT_START---"

/-- `OUTPUT_END_MARKER` in `container/agent-runner/src/index.ts`. -/
def RUNNER_OUTPUT_END_MARKER : String := "---NANOCLAW_OUTPUT_END---"

/-- `writeOutput` in `container/agent-runner/src/index.ts`: the three lines
written to stdout (start marker, the serialized payload, end marker). -/
def writeOutputLines (payload : String) : List String :=
  [RUNNER_OUTPUT_START_MARKER, payload, RUNNER_OUTPUT_END_MARKER]

/-- The payload of the spec's Scenario C:
`{"status":"success","result":"ok"}`. -/
def scenarioSuccessJson : String :=
  ⟨[braceOpen]⟩ ++ "\"status\":\"success\",\"result\":\"ok\"" ++ ⟨[braceClose]⟩

/-! ## Model provider registry

From `src/model-providers/provider-manager.ts`.  The JS
`Record<string, ModelProviderName>` is modelled as an association list; the
synchronous `save()` after each mutation is modelled by the returned store. -/

/-- `ModelProviderName` in `src/model-providers/types.ts`. -/
inductive ModelProviderName where
  | claude
  | gemini
deriving DecidableEq, Repr

/-- Set a key in a JS object modelled as an association list (replace the
binding if present, add it otherwise). -/
def assocSet {β : Type} (m : List (String × β)) (k : String) (v : β) :
    List (String × β) :=
  match m with
  | [] => [(k, v)]
  | (k', v') :: rest =>
    if k' = k then (k, v) :: rest else (k', v') :: assocSet rest k v

/-- JS `delete obj[k]` on an association list. -/
def assocErase {β : Type} (m : List (String × β)) (k : String) :
    List (String × β) :=
  match m with
  | [] => []
  | (k', v') :: rest => if k' = k then assocErase rest k else (k', v') :: assocErase rest k

/-- `ModelProviderStore` in `src/model-providers/provider-manager.ts`. -/
structure ModelProviderStore where
  global_default : ModelProviderName
  groups : List (String × ModelProviderName)
deriving DecidableEq, Repr

/-- `ModelProviderManager.getProviderForGroup`:
`this.store.groups[groupFolder] || this.store.global_default` (provider names
are a two-value enum, so the stored value is never falsy). -/
def getProviderForGroup (st : ModelProviderStore) (groupFolder : String) :
    ModelProviderName :=
  (st.groups.lookup groupFolder).getD st.global_default

/-- `ModelProviderManager.setProviderForGroup` (followed by `save()`). -/
def setProviderForGroup (st : ModelProviderStore) (groupFolder : String)
    (provider : ModelProviderName) : ModelProviderStore :=
  { st with groups := assocSet st.groups groupFolder provider }

/-- `ModelProviderManager.clearProviderForGroup` (followed by `save()`). -/
def clearProviderForGroup (st : ModelProviderStore) (groupFolder : String) :
    ModelProviderStore :=
  { st with groups := assocErase st.groups groupFolder }

/-- `ModelProviderManager.setGlobalDefault` (followed by `save()`). -/
def setGlobalDefault (st : ModelProviderStore) (provider : ModelProviderName) :
    ModelProviderStore :=
  { st with global_default := provider }

/-! ## Scheduled-task rows

From `src/db.ts` (`scheduled_tasks` table and `updateTaskAfterRun`). -/

/-- One row of the `scheduled_tasks` table (`src/db.ts`), with the columns the
claims are about; `TEXT` columns that may be `NULL` are `Option String`. -/
structure TaskRow where
  id : String
  group_folder : String
  chat_jid : String
  prompt : String
  schedule_type : String
  schedule_value : String
  next_run : Option String
  last_run : Option String
  last_result : Option String
  status : String
  created_at : String
deriving DecidableEq, Repr

/-- `updateTaskAfterRun` in `src/db.ts`: `SET next_run = ?, last_run = now,
last_result = ?, status = CASE WHEN ? IS NULL THEN 'completed' ELSE status
END` (the `?` of the `CASE` is bound to the same `nextRun` argument). -/
def updateTaskAfterRun (t : TaskRow) (nextRun : Option String)
    (lastResult : String) (now : String) : TaskRow :=
  { t with
    next_run := nextRun
    last_run := some now
    last_result := some lastResult
    status := if nextRun = none then "completed" else t.status }

/-- The `WHERE` clause of `getDueTasks` in `src/db.ts`:
`status = 'active' AND next_run IS NOT NULL AND next_run <= now`. -/
def isDue (t : TaskRow) (now : String) : Bool :=
  t.status = "active" &&
    match t.next_run with
    | some v => v ≤ now
    | none => false

/-- Modelled from the spec: the scheduler's recomputation of a task's next due
time after a run (the scheduler module itself is not under `src/`; spec §4.4:
"a `once` task's next-due becomes null; a `cron`/`interval` task gets a
freshly computed future timestamp"). -/
def computeNextRunAfterRun (scheduleType : String) (freshTime : String) :
    Option String :=
  if scheduleType = "once" then none else some freshTime

/-! ## IPC snapshots

From `src/container-runner.ts`.  Each function writes one JSON file into the
group's private IPC directory; the model returns the written content. -/

/-- The task projection written by `writeTasksSnapshot`
(`src/container-runner.ts`). -/
structure TaskSnapshotEntry where
  id : String
  groupFolder : String
  prompt : String
  schedule_type : String
  schedule_value : String
  status : String
  next_run : Option String
deriving DecidableEq, Repr

/-- `writeTasksSnapshot` in `src/container-runner.ts`: the content of the
`current_tasks.json` file written into group `groupFolder`'s IPC directory
(`isMain ? tasks : tasks.filter(t => t.groupFolder === groupFolder)`). -/
def writeTasksSnapshot (groupFolder : String) (isMain : Bool)
    (tasks : List TaskSnapshotEntry) : List TaskSnapshotEntry :=
  if isMain then tasks else tasks.filter (fun t => t.groupFolder = groupFolder)

/-- `AvailableGroup` in `src/container-runner.ts`. -/
structure AvailableGroup where
  jid : String
  name : String
  lastActivity : String
  isRegistered : Bool
deriving DecidableEq, Repr

/-- `writeGroupsSnapshot` in `src/container-runner.ts`: the content of the
`available_groups.json` file (the visible group list is
`isMain ? groups : []`, paired with the `lastSync` timestamp; the
`registeredJids` argument is accepted but unused, as in the source). -/
def writeGroupsSnapshot (_groupFolder : String) (isMain : Bool)
    (groups : List AvailableGroup) (_registeredJids : List String)
    (lastSync : String) : List AvailableGroup × String :=
  (if isMain then groups else [], lastSync)

/-! ## Agent responses and the JSON payload decode

`AgentResponse` is `src/model-providers/types.ts`; fields are `Option String`
because the value produced by `JSON.parse(...) as AgentResponse` is not
validated at runtime (an absent or non-string field is `undefined`). -/

/-- `AgentResponse` in `src/model-providers/types.ts`, as it exists at
runtime: every field may be absent. -/
structure AgentResponse where
  status : Option String
  result : Option String
  newSessionId : Option String
  error : Option String
deriving DecidableEq, Repr

/-- A JSON scalar value (the payload protocol uses flat objects whose values
are strings, `null`, numbers or booleans). -/
inductive JVal where
  | jstr (s : List Char)
  | jnum (n : Int)
  | jbool (b : Bool)
  | jnull
deriving DecidableEq, Repr

/-- Skip JSON insignificant whitespace. -/
def skipWs (l : List Char) : List Char := l.dropWhile wsChar

/-- Parse the body of a JSON string after the opening quote, up to the
closing quote.  Escape sequences are not modelled (the payloads the claims
evaluate contain none); a backslash fails the parse. -/
def parseStringBody : List Char → Option (List Char × List Char)
  | [] => none
  | c :: rest =>
    if c = '"' then some ([], rest)
    else if c = '\\' then none
    else (parseStringBody rest).map (fun p => (c :: p.1, p.2))

/-- Parse a literal keyword (`null`, `true`, `false`). -/
def parseLiteral (lit l : List Char) : Option (List Char) :=
  if lit.isPrefixOf l then some (l.drop lit.length) else none

/-- Decimal digits to a natural number. -/
def digitsToNat (ds : List Char) : Nat :=
  ds.foldl (fun a c => a * 10 + (c.toNat - '0'.toNat)) 0

/-- Parse a JSON integer (fractions and exponents are not modelled). -/
def parseNumber (l : List Char) : Option (Int × List Char) :=
  match l with
  | '-' :: rest =>
    let ds := rest.takeWhile Char.isDigit
    if ds = [] then none else some (-(digitsToNat ds : Int), rest.dropWhile Char.isDigit)
  | _ =>
    let ds := l.takeWhile Char.isDigit
    if ds = [] then none else some ((digitsToNat ds : Int), l.dropWhile Char.isDigit)

/-- Parse one JSON scalar value (after optional whitespace). -/
def parseValue (l : List Char) : Option (JVal × List Char) :=
  match skipWs l with
  | '"' :: rest => (parseStringBody rest).map (fun p => (JVal.jstr p.1, p.2))
  | l' =>
    match parseLiteral "null".data l' with
    | some r => some (JVal.jnull, r)
    | none =>
      match parseLiteral "true".data l' with
      | some r => some (JVal.jbool true, r)
      | none =>
        match parseLiteral "false".data l' with
        | some r => some (JVal.jbool false, r)
        | none => (parseNumber l').map (fun p => (JVal.jnum p.1, p.2))

/-- Parse the members of a JSON object after the opening brace, including the
closing brace.  `fuel` bounds the recursion (callers pass the input length). -/
def parseMembers : Nat → List Char → Option (List (List Char × JVal) × List Char)
  | 0, _ => none
  | fuel + 1, l =>
    match skipWs l with
    | '"' :: rest =>
      match parseStringBody rest with
      | none => none
      | some (key, r1) =>
        match skipWs r1 with
        | ':' :: r2 =>
          match parseValue r2 with
          | none => none
          | some (v, r3) =>
            match skipWs r3 with
            | c :: r4 =>
              if c = ',' then
                (parseMembers fuel r4).map (fun p => ((key, v) :: p.1, p.2))
              else if c = braceClose then some ([(key, v)], r4)
              else none
            | [] => none
        | _ => none
    | _ => none

/-- Model of the JavaScript built-in `JSON.parse`, restricted to flat objects
with scalar values — the shape of the sandbox response protocol.  Nested
collections, string escapes and non-integer numbers are outside the model and
fail the parse. -/
def parseFlatJson (l : List Char) : Option (List (List Char × JVal)) :=
  match skipWs l with
  | c :: r =>
    if c = braceOpen then
      match skipWs r with
      | c' :: r2 =>
        if c' = braceClose then
          if skipWs r2 = [] then some [] else none
        else
          match parseMembers (r.length + 1) r with
          | some (ms, rest) => if skipWs rest = [] then some ms else none
          | none => none
      | [] => none
    else none
  | [] => none

/-- Read one string-valued field of a parsed object (an absent field or one
of another type is `undefined`). -/
def jLookupStr (obj : List (List Char × JVal)) (k : String) : Option String :=
  match obj.lookup k.data with
  | some (JVal.jstr s) => some (String.mk s)
  | _ => none

/-- The fields of `JSON.parse(jsonLine) as AgentResponse` that the callers
read (`status`, `result`, `newSessionId`, `error`). -/
def decodeAgentResponse (obj : List (List Char × JVal)) : AgentResponse :=
  { status := jLookupStr obj "status"
    result := jLookupStr obj "result"
    newSessionId := jLookupStr obj "newSessionId"
    error := jLookupStr obj "error" }

/-- `JSON.parse(jsonLine)` followed by reading the response fields. -/
def parseAgentResponse (l : List Char) : Option AgentResponse :=
  (parseFlatJson l).map decodeAgentResponse

/-- Model of the V8 `SyntaxError.message` on a failed `JSON.parse`, which
quotes (a truncated snippet of) the offending input. -/
def jsonParseErrorMessage (l : List Char) : String :=
  "Unexpected token: " ++ String.mk (l.take 100) ++ " is not valid JSON"

/-! ## Result extraction and the close handler

From `spawnContainerAgent` in `src/container-utils.ts` (lines 288–379) and
the duplicated logic in `ClaudeProvider.runAgent`
(`src/model-providers/claude-provider.ts`, lines 281–372). -/

/-- The sentinel extraction of `spawnContainerAgent` / `ClaudeProvider.runAgent`:
`startIdx = stdout.indexOf(OUTPUT_START_MARKER)`,
`endIdx = stdout.indexOf(OUTPUT_END_MARKER)`; when both are found with
`endIdx > startIdx`, the slice between them, trimmed; otherwise the last
line of `stdout.trim().split('\n')`. -/
def extractJsonLine (stdout : List Char) : List Char :=
  match idxOf? stdout OUTPUT_START_MARKER.data, idxOf? stdout OUTPUT_END_MARKER.data with
  | some si, some ei =>
    if si < ei then trim (sliceList stdout (si + OUTPUT_START_MARKER.data.length) ei)
    else lastLineOf (trim stdout)
  | _, _ => lastLineOf (trim stdout)

/-- A character other than the line separator (the predicate of the "chars
after the last newline" view of the last line). -/
def notNl (c : Char) : Bool := !(c == '\n')

/-- A non-whitespace (content) character. -/
def nonWs (c : Char) : Bool := !(wsChar c)

/-- A line with visible content: it contains a non-whitespace character. -/
def hasContent (s : List Char) : Bool := s.any nonWs

/-- The claim's "last non-empty line of stdout": the last of the stdout's
newline-separated lines that carries visible content (`[]` when none does). -/
def lastNonEmptyLine (l : List Char) : List Char :=
  ((splitLines l).filter hasContent).getLastD []

/-- The branch condition of the extraction: both sentinel markers occur
(first occurrences) with the end marker strictly after the start marker. -/
def sentinelsFound (stdout : List Char) : Bool :=
  match idxOf? stdout OUTPUT_START_MARKER.data, idxOf? stdout OUTPUT_END_MARKER.data with
  | some si, some ei => si < ei
  | _, _ => false

/-- The `close` handler of `spawnContainerAgent` (`src/container-utils.ts`):
non-zero exit resolves an error carrying the stderr tail; exit 0 parses the
extracted payload, resolving the parsed fields on success and a parse-error
response on failure. -/
def cuCloseHandler (code : Int) (stdoutAcc stderrAcc : List Char) : AgentResponse :=
  if code ≠ 0 then
    { status := some "error"
      result := none
      newSessionId := none
      error := some ("Container exited with code " ++ toString code ++
        ".\n\nLast stderr:\n" ++ String.mk (takeRight stderrAcc 1000)) }
  else
    match parseAgentResponse (extractJsonLine stdoutAcc) with
    | some out => out
    | none =>
      { status := some "error"
        result := none
        newSessionId := none
        error := some ("Failed to parse container output: " ++
          jsonParseErrorMessage (extractJsonLine stdoutAcc)) }

/-- The `close` handler of `ClaudeProvider.runAgent`
(`src/model-providers/claude-provider.ts`): identical logic with
Claude-specific message text. -/
def claudeCloseHandler (code : Int) (stdoutAcc stderrAcc : List Char) : AgentResponse :=
  if code ≠ 0 then
    { status := some "error"
      result := none
      newSessionId := none
      error := some ("Claude container exited with code " ++ toString code ++
        ".\n\nLast stderr:\n" ++ String.mk (takeRight stderrAcc 1000)) }
  else
    match parseAgentResponse (extractJsonLine stdoutAcc) with
    | some out => out
    | none =>
      { status := some "error"
        result := none
        newSessionId := none
        error := some ("Failed to parse Claude output: " ++
          jsonParseErrorMessage (extractJsonLine stdoutAcc)) }

/-! ## Stream accumulation up to the output cap

The `data` handlers of both `runAgent` implementations (identical for stdout
and stderr, apart from stderr's extra line logging). -/

/-- An output-stream buffer: the accumulated text and the truncation flag. -/
structure StreamBuf where
  acc : List Char
  truncated : Bool
deriving DecidableEq, Repr

/-- One `data` event: when already truncated the chunk is discarded; when the
chunk exceeds `remaining = cap - acc.length` it is cut to `remaining` and the
flag is set; otherwise it is appended whole. -/
def pushChunk (cap : Nat) (b : StreamBuf) (chunk : List Char) : StreamBuf :=
  if b.truncated then b
  else
    let remaining := cap - b.acc.length
    if chunk.length > remaining then
      { acc := b.acc ++ chunk.take remaining, truncated := true }
    else
      { acc := b.acc ++ chunk, truncated := b.truncated }

/-- Accumulate a whole stream of chunks, starting from the empty buffer. -/
def accumChunks (cap : Nat) (chunks : List (List Char)) : StreamBuf :=
  chunks.foldl (pushChunk cap) ⟨[], false⟩

/-! ## The launcher as a whole

One invocation is modelled by its externally observable outcome: the spawn
fails, the timeout timer fires first, or the process closes with an exit code
after emitting some stdout/stderr chunks.  The promise resolves exactly once;
`killed` records whether the handler issued `container.kill('SIGKILL')`. -/

/-- `CONTAINER_TIMEOUT` (`src/config.ts`, not under `src/`; its default,
300000 ms, is documented in the repository's configuration sample:
"Container timeout in ms (default: 5 min)"). -/
def CONTAINER_TIMEOUT : Nat := 300000

/-- The externally observable fate of one sandbox process.  A timed-out
process may already have emitted partial output; the chunks are recorded so
that theorems can quantify over them. -/
inductive ProcOutcome where
  | spawnError (msg : String)
  | timedOut (partialStdoutChunks partialStderrChunks : List (List Char))
  | exited (code : Int) (stdoutChunks stderrChunks : List (List Char))
deriving Repr

/-- What one invocation produces: whether the process was force-killed, and
the response the promise resolved with. -/
structure InvocationResult where
  killed : Bool
  response : AgentResponse
deriving DecidableEq, Repr

/-- `spawnContainerAgent` in `src/container-utils.ts`: the applied timeout is
`options.input.containerConfig?.timeout || CONTAINER_TIMEOUT` and the timeout
message interpolates that same applied value (`timeoutMs`). -/
def spawnContainerAgent (cap dflt : Nat) (inputTimeout : Option Nat)
    (o : ProcOutcome) : InvocationResult :=
  match o with
  | ProcOutcome.spawnError msg =>
    ⟨false,
      { status := some "error", result := none, newSessionId := none,
        error := some ("Container spawn error: " ++ msg) }⟩
  | ProcOutcome.timedOut _ _ =>
    ⟨true,
      { status := some "error", result := none, newSessionId := none,
        error := some ("Container timed out after " ++
          toString (jsOrNat inputTimeout dflt) ++ "ms") }⟩
  | ProcOutcome.exited code souts serrs =>
    ⟨false, cuCloseHandler code (accumChunks cap souts).acc (accumChunks cap serrs).acc⟩

/-- `ClaudeProvider.runAgent` in `src/model-providers/claude-provider.ts`:
the timer delay is `group.containerConfig?.timeout || CONTAINER_TIMEOUT`, but
the timeout message interpolates the constant `CONTAINER_TIMEOUT` (`dflt`),
not the applied delay. -/
def claudeRunAgent (cap dflt : Nat) (_groupTimeout : Option Nat)
    (o : ProcOutcome) : InvocationResult :=
  match o with
  | ProcOutcome.spawnError msg =>
    ⟨false,
      { status := some "error", result := none, newSessionId := none,
        error := some ("Claude container spawn error: " ++ msg) }⟩
  | ProcOutcome.timedOut _ _ =>
    ⟨true,
      { status := some "error", result := none, newSessionId := none,
        error := some ("Claude container timed out after " ++ toString dflt ++ "ms") }⟩
  | ProcOutcome.exited code souts serrs =>
    ⟨false, claudeCloseHandler code (accumChunks cap souts).acc (accumChunks cap serrs).acc⟩

/-! ## Session bookkeeping around a run

From `AgentService.runAgent` (routing service) and `updateSession` (state
module): after `runContainerAgent` resolves, the service runs
`if (output.newSessionId) updateSession(group.folder, output.newSessionId)`
and only then inspects `output.status`; a thrown error is caught and changes
nothing. -/

/-- How one `runContainerAgent` call ends at the `AgentService` layer: the
promise rejected (caught by the `try`/`catch`), or it resolved with a
response. -/
inductive RunAgentEvent where
  | threw
  | completed (output : AgentResponse)
deriving Repr

/-- The session map after `AgentService.runAgent` handles one run outcome
(`updateSession` assigns `sessions[groupFolder] = sessionId` and persists the
map; the model returns the persisted map). -/
def sessionsAfterRun (sessions : List (String × String)) (groupFolder : String)
    (ev : RunAgentEvent) : List (String × String) :=
  match ev with
  | RunAgentEvent.threw => sessions
  | RunAgentEvent.completed output =>
    if jsTruthy output.newSessionId then
      assocSet sessions groupFolder (output.newSessionId.getD "")
    else sessions

/-! ## Association-list helper lemmas (shared) -/

theorem lookup_assocSet {β : Type} (m : List (String × β)) (k : String) (v : β) :
    (assocSet m k v).lookup k = some v := by
  induction m with
  | nil => simp [assocSet, List.lookup]
  | cons hd tl ih =>
    obtain ⟨k', v'⟩ := hd
    by_cases h : k' = k
    · simp [assocSet, h, List.lookup]
    · simp only [assocSet, if_neg h, List.lookup]
      have : (k == k') = false := by
        simp [Ne.symm h]
      simp [this, ih]

theorem lookup_assocErase {β : Type} (m : List (String × β)) (k : String) :
    (assocErase m k).lookup k = none := by
  induction m with
  | nil => simp [assocErase]
  | cons hd tl ih =>
    obtain ⟨k', v'⟩ := hd
    by_cases h : k' = k
    · simp [assocErase, h, ih]
    · simp only [assocErase, if_neg h, List.lookup]
      have : (k == k') = false := by
        simp [Ne.symm h]
      simp [this, ih]

/-! ## Claim theorems: registry, sessions, tasks, snapshots, markers -/

/-- Claim C6: setting a provider override for a group and then resolving that
group returns the override; clearing the override and resolving returns the
global default; in general resolution returns the per-group override when one
exists and the process-wide default otherwise. -/
theorem C6_provider_resolution (st : ModelProviderStore) (g : String)
    (p : ModelProviderName) :
    getProviderForGroup (setProviderForGroup st g p) g = p
    ∧ getProviderForGroup (clearProviderForGroup st g) g = st.global_default
    ∧ (∀ q, st.groups.lookup g = some q → getProviderForGroup st g = q)
    ∧ (st.groups.lookup g = none → getProviderForGroup st g = st.global_default) := by
  refine ⟨?_, ?_, ?_, ?_⟩
  · simp [getProviderForGroup, setProviderForGroup, lookup_assocSet]
  · simp [getProviderForGroup, clearProviderForGroup, lookup_assocErase]
  · intro q hq
    simp [getProviderForGroup, hq]
  · intro hq
    simp [getProviderForGroup, hq]

/-- Witness for C6 at a concrete store. -/
theorem C6_provider_resolution_witness :
    getProviderForGroup
        (setProviderForGroup ⟨ModelProviderName.claude, []⟩ "alpha" ModelProviderName.gemini)
        "alpha" = ModelProviderName.gemini
    ∧ getProviderForGroup
        (clearProviderForGroup ⟨ModelProviderName.claude, [("alpha", ModelProviderName.gemini)]⟩ "alpha")
        "alpha" = ModelProviderName.claude
    ∧ getProviderForGroup ⟨ModelProviderName.claude, [("alpha", ModelProviderName.gemini)]⟩ "alpha"
        = ModelProviderName.gemini := by
  have h1 := C6_provider_resolution ⟨ModelProviderName.claude, []⟩ "alpha" ModelProviderName.gemini
  have h2 := C6_provider_resolution
    ⟨ModelProviderName.claude, [("alpha", ModelProviderName.gemini)]⟩ "alpha" ModelProviderName.gemini
  exact ⟨h1.1, h2.2.1, h2.2.2.1 ModelProviderName.gemini (by decide)⟩

/-- Claim C7 as stated is false: `AgentService.runAgent` applies
`updateSession` whenever the response carries a (truthy) `newSessionId`,
*before* inspecting `status`, so a failed run whose response carries a
`newSessionId` does change the stored session id.  Concretely, with stored
session `old` for group `alpha` and a response
`status='error', newSessionId='sid-x'`, the stored id becomes `sid-x`. -/
theorem C7_counterexample :
    sessionsAfterRun [("alpha", "old")] "alpha"
        (RunAgentEvent.completed
          { status := some "error", result := none,
            newSessionId := some "sid-x", error := some "boom" })
      ≠ [("alpha", "old")]
    ∧ (sessionsAfterRun [("alpha", "old")] "alpha"
        (RunAgentEvent.completed
          { status := some "error", result := none,
            newSessionId := some "sid-x", error := some "boom" })).lookup "alpha"
      = some "sid-x" := by
  decide

/-- Claim C7 (amended): the stored session id for the group is overwritten
(and the map persisted) exactly when the resolved response carries a
non-empty `newSessionId` — regardless of its `status`; in particular a
successful run with a new session id overwrites it, a run whose response
carries no (or an empty) `newSessionId` leaves it unchanged, and a thrown
error always leaves it unchanged. -/
theorem C7_sessions_after_run (sessions : List (String × String)) (g : String)
    (out : AgentResponse) :
    (∀ sid, out.newSessionId = some sid → sid ≠ "" →
      (sessionsAfterRun sessions g (RunAgentEvent.completed out)).lookup g = some sid)
    ∧ (jsTruthy out.newSessionId = false →
      sessionsAfterRun sessions g (RunAgentEvent.completed out) = sessions)
    ∧ sessionsAfterRun sessions g RunAgentEvent.threw = sessions := by
  refine ⟨?_, ?_, rfl⟩
  · intro sid hsid hne
    have hie : sid.isEmpty = false := by
      by_contra h
      rw [Bool.not_eq_false] at h
      exact hne ((String.isEmpty_iff sid).mp h)
    simp [sessionsAfterRun, hsid, jsTruthy, hie, lookup_assocSet]
  · intro hf
    simp [sessionsAfterRun, hf]

/-- Witness for C7 (amended) at concrete inputs. -/
theorem C7_sessions_after_run_witness :
    (sessionsAfterRun [("alpha", "old")] "alpha"
        (RunAgentEvent.completed
          { status := some "success", result := some "hi",
            newSessionId := some "sid-1", error := none })).lookup "alpha"
      = some "sid-1"
    ∧ sessionsAfterRun [("alpha", "old")] "alpha"
        (RunAgentEvent.completed
          { status := some "error", result := none,
            newSessionId := none, error := some "x" })
      = [("alpha", "old")] := by
  have h := C7_sessions_after_run [("alpha", "old")] "alpha"
    { status := some "success", result := some "hi",
      newSessionId := some "sid-1", error := none }
  have h' := C7_sessions_after_run [("alpha", "old")] "alpha"
    { status := some "error", result := none, newSessionId := none, error := some "x" }
  exact ⟨h.1 "sid-1" rfl (by decide), h'.2.1 (by decide)⟩

/-- Claim C8: `updateTaskAfterRun` with a null computed next-run time sets
`status='completed'` and `next_run=null`; with a non-null next-run time it
leaves the status unchanged; the next-run computation for a `once` task is
null, so a `once` task ends completed with null next-due after its single
run; every due task (per `getDueTasks`'s `WHERE` clause) has status
`active`, and advancing a not-yet-completed task never leaves `next_run`
non-null while the status is `completed`. -/
theorem C8_update_task_after_run (t : TaskRow) (nextRun : Option String)
    (res now freshTime : String) :
    (nextRun = none →
      (updateTaskAfterRun t nextRun res now).status = "completed"
      ∧ (updateTaskAfterRun t nextRun res now).next_run = none)
    ∧ (nextRun ≠ none → (updateTaskAfterRun t nextRun res now).status = t.status)
    ∧ ((updateTaskAfterRun t (computeNextRunAfterRun "once" freshTime) res now).status
        = "completed"
      ∧ (updateTaskAfterRun t (computeNextRunAfterRun "once" freshTime) res now).next_run
        = none)
    ∧ (∀ q, isDue t q = true → t.status = "active")
    ∧ (t.status ≠ "completed" →
      ¬((updateTaskAfterRun t nextRun res now).status = "completed"
        ∧ (updateTaskAfterRun t nextRun res now).next_run ≠ none)) := by
  refine ⟨?_, ?_, ?_, ?_, ?_⟩
  · intro h
    simp [updateTaskAfterRun, h]
  · intro h
    simp [updateTaskAfterRun, h]
  · simp [updateTaskAfterRun, computeNextRunAfterRun]
  · intro q hq
    simp only [isDue, Bool.and_eq_true, decide_eq_true_eq] at hq
    exact hq.1
  · intro hst hcontra
    rcases hcontra with ⟨hc, hnr⟩
    by_cases h : nextRun = none
    · simp [updateTaskAfterRun, h] at hnr
    · simp [updateTaskAfterRun, h] at hc
      exact hst hc

/-- Witness for C8 at a concrete task row. -/
theorem C8_update_task_after_run_witness :
    (updateTaskAfterRun
        ⟨"t1", "alpha", "jid", "p", "once", "2026-01-01", some "2026-01-01",
          none, none, "active", "2025-12-31"⟩
        none "done" "2026-01-02").status = "completed"
    ∧ (updateTaskAfterRun
        ⟨"t1", "alpha", "jid", "p", "interval", "1000", some "2026-01-01",
          none, none, "active", "2025-12-31"⟩
        (some "2026-01-03") "done" "2026-01-02").status = "active" := by
  have h1 := C8_update_task_after_run
    ⟨"t1", "alpha", "jid", "p", "once", "2026-01-01", some "2026-01-01",
      none, none, "active", "2025-12-31"⟩ none "done" "2026-01-02" "x"
  have h2 := C8_update_task_after_run
    ⟨"t1", "alpha", "jid", "p", "interval", "1000", some "2026-01-01",
      none, none, "active", "2025-12-31"⟩ (some "2026-01-03") "done" "2026-01-02" "x"
  exact ⟨(h1.1 rfl).1, h2.2.1 (by decide)⟩

/-- Claim C9 as stated is false: the sentinel marker lines in the source are
not `---OUTPUT_START---` / `---OUTPUT_END---`. -/
theorem C9_counterexample :
    OUTPUT_START_MARKER ≠ "---OUTPUT_START---"
    ∧ OUTPUT_END_MARKER ≠ "---OUTPUT_END---" := by
  decide

/-- Claim C9 (amended): the two fixed sentinel lines — emitted by the agent
runner's `writeOutput` around its single JSON object and searched for by the
launcher — are the literal lines `---NANOCLAW_OUTPUT_START---` and
`---NANOCLAW_OUTPUT_END---`, identical on both sides. -/
theorem C9_sentinel_markers :
    OUTPUT_START_MARKER = "---NANOCLAW_OUTPUT_START---"
    ∧ OUTPUT_END_MARKER = "---NANOCLAW_OUTPUT_END---"
    ∧ RUNNER_OUTPUT_START_MARKER = OUTPUT_START_MARKER
    ∧ RUNNER_OUTPUT_END_MARKER = OUTPUT_END_MARKER
    ∧ ∀ payload, writeOutputLines payload
        = [OUTPUT_START_MARKER, payload, OUTPUT_END_MARKER] := by
  exact ⟨rfl, rfl, rfl, rfl, fun _ => rfl⟩

/-- Claim C10: for a non-main group `g`, the tasks snapshot contains exactly
`g`'s own tasks, the groups snapshot contains an empty group list, and the
written snapshots depend only on `g`'s own tasks — any two inputs agreeing on
`g`'s tasks produce identical snapshot files (and any two chat lists produce
identical group snapshots). -/
theorem C10_snapshot_isolation (g : String) (tasks tasks' : List TaskSnapshotEntry)
    (groups groups' : List AvailableGroup) (regs regs' : List String)
    (lastSync : String) :
    (∀ t, t ∈ writeTasksSnapshot g false tasks ↔ t ∈ tasks ∧ t.groupFolder = g)
    ∧ (writeGroupsSnapshot g false groups regs lastSync).1 = []
    ∧ (tasks.filter (fun t => t.groupFolder = g)
        = tasks'.filter (fun t => t.groupFolder = g) →
      writeTasksSnapshot g false tasks = writeTasksSnapshot g false tasks')
    ∧ writeGroupsSnapshot g false groups regs lastSync
        = writeGroupsSnapshot g false groups' regs' lastSync := by
  refine ⟨?_, rfl, ?_, rfl⟩
  · intro t
    simp [writeTasksSnapshot, List.mem_filter]
  · intro h
    simpa [writeTasksSnapshot] using h

/-- Witness for C10 at concrete inputs. -/
theorem C10_snapshot_isolation_witness :
    (⟨"t1", "alpha", "p", "once", "v", "active", none⟩ : TaskSnapshotEntry)
        ∈ writeTasksSnapshot "alpha" false
            [⟨"t1", "alpha", "p", "once", "v", "active", none⟩,
             ⟨"t2", "beta", "p2", "once", "v", "active", none⟩]
    ∧ writeTasksSnapshot "alpha" false
          [⟨"t1", "alpha", "p", "once", "v", "active", none⟩,
           ⟨"t2", "beta", "p2", "once", "v", "active", none⟩]
        = writeTasksSnapshot "alpha" false
            [⟨"t1", "alpha", "p", "once", "v", "active", none⟩,
             ⟨"t3", "gamma", "p3", "cron", "c", "paused", none⟩] := by
  have h := C10_snapshot_isolation "alpha"
    [⟨"t1", "alpha", "p", "once", "v", "active", none⟩,
     ⟨"t2", "beta", "p2", "once", "v", "active", none⟩]
    [⟨"t1", "alpha", "p", "once", "v", "active", none⟩,
     ⟨"t3", "gamma", "p3", "cron", "c", "paused", none⟩]
    [] [] [] [] "now"
  exact ⟨(h.1 _).mpr (by decide), h.2.2.1 (by decide)⟩

/-! ## Stream-buffer lemmas (shared) -/

theorem pushChunk_truncated_id (cap : Nat) (b : StreamBuf) (ch : List Char)
    (h : b.truncated = true) : pushChunk cap b ch = b := by
  simp [pushChunk, h]

theorem foldl_pushChunk_truncated_id (cap : Nat) (chunks : List (List Char))
    (b : StreamBuf) (h : b.truncated = true) :
    chunks.foldl (pushChunk cap) b = b := by
  induction chunks with
  | nil => rfl
  | cons ch rest ih =>
    simp only [List.foldl_cons, pushChunk_truncated_id cap b ch h]
    exact ih

theorem pushChunk_acc_le (cap : Nat) (b : StreamBuf) (ch : List Char)
    (hb : b.acc.length ≤ cap) : (pushChunk cap b ch).acc.length ≤ cap := by
  by_cases ht : b.truncated
  · simp [pushChunk, ht, hb]
  · by_cases hcut : ch.length > cap - b.acc.length
    · simp only [pushChunk, ht, Bool.false_eq_true, if_false, if_pos hcut,
        List.length_append, List.length_take]
      omega
    · simp only [pushChunk, ht, Bool.false_eq_true, if_false, if_neg hcut,
        List.length_append]
      omega

theorem foldl_pushChunk_acc_le (cap : Nat) (chunks : List (List Char)) :
    ∀ b : StreamBuf, b.acc.length ≤ cap →
      (chunks.foldl (pushChunk cap) b).acc.length ≤ cap := by
  induction chunks with
  | nil => intro b hb; exact hb
  | cons ch rest ih =>
    intro b hb
    exact ih _ (pushChunk_acc_le cap b ch hb)

theorem foldl_pushChunk_truncated_of_overflow (cap : Nat) (chunks : List (List Char)) :
    ∀ b : StreamBuf, b.truncated = false → b.acc.length ≤ cap →
      cap < b.acc.length + (chunks.map List.length).sum →
      (chunks.foldl (pushChunk cap) b).truncated = true := by
  induction chunks with
  | nil =>
    intro b hb hle hover
    simp at hover
    omega
  | cons ch rest ih =>
    intro b hb hle hover
    simp only [List.foldl_cons]
    by_cases hcut : ch.length > cap - b.acc.length
    · have hpush : (pushChunk cap b ch).truncated = true := by
        simp [pushChunk, hb, hcut]
      rw [foldl_pushChunk_truncated_id cap rest _ hpush]
      exact hpush
    · have hpush : pushChunk cap b ch = ⟨b.acc ++ ch, b.truncated⟩ := by
        simp [pushChunk, hb, hcut]
      rw [hpush]
      simp only [List.map_cons, List.sum_cons] at hover
      apply ih ⟨b.acc ++ ch, b.truncated⟩ hb
      · simp only [List.length_append]
        omega
      · simp only [List.length_append]
        omega

/-! ## Claim theorems: the launcher -/

/-- Claim C1: `invoke` never rejects — each failure mode (spawn failure,
timeout, non-zero exit, undecodable output) resolves to an `AgentResponse`
with `status='error'` and the failure described in the `error` detail field,
in both `spawnContainerAgent` and `ClaudeProvider.runAgent`. -/
theorem C1_invoke_never_raises (cap dflt : Nat) (cfgT gT : Option Nat) :
    (∀ msg, (spawnContainerAgent cap dflt cfgT (ProcOutcome.spawnError msg)).response.status
        = some "error"
      ∧ (spawnContainerAgent cap dflt cfgT (ProcOutcome.spawnError msg)).response.error
        = some ("Container spawn error: " ++ msg)
      ∧ (claudeRunAgent cap dflt gT (ProcOutcome.spawnError msg)).response.status
        = some "error"
      ∧ (claudeRunAgent cap dflt gT (ProcOutcome.spawnError msg)).response.error
        = some ("Claude container spawn error: " ++ msg))
    ∧ (∀ pouts perrs,
        (spawnContainerAgent cap dflt cfgT (ProcOutcome.timedOut pouts perrs)).response.status
          = some "error"
        ∧ ((spawnContainerAgent cap dflt cfgT (ProcOutcome.timedOut pouts perrs)).response.error).isSome
          = true
        ∧ (claudeRunAgent cap dflt gT (ProcOutcome.timedOut pouts perrs)).response.status
          = some "error"
        ∧ ((claudeRunAgent cap dflt gT (ProcOutcome.timedOut pouts perrs)).response.error).isSome
          = true)
    ∧ (∀ code souts serrs, code ≠ 0 →
        (spawnContainerAgent cap dflt cfgT (ProcOutcome.exited code souts serrs)).response.status
          = some "error"
        ∧ ((spawnContainerAgent cap dflt cfgT (ProcOutcome.exited code souts serrs)).response.error).isSome
          = true
        ∧ (claudeRunAgent cap dflt gT (ProcOutcome.exited code souts serrs)).response.status
          = some "error"
        ∧ ((claudeRunAgent cap dflt gT (ProcOutcome.exited code souts serrs)).response.error).isSome
          = true)
    ∧ (∀ souts serrs,
        parseAgentResponse (extractJsonLine (accumChunks cap souts).acc) = none →
        (spawnContainerAgent cap dflt cfgT (ProcOutcome.exited 0 souts serrs)).response.status
          = some "error"
        ∧ ((spawnContainerAgent cap dflt cfgT (ProcOutcome.exited 0 souts serrs)).response.error).isSome
          = true
        ∧ (claudeRunAgent cap dflt gT (ProcOutcome.exited 0 souts serrs)).response.status
          = some "error"
        ∧ ((claudeRunAgent cap dflt gT (ProcOutcome.exited 0 souts serrs)).response.error).isSome
          = true) := by
  refine ⟨fun msg => ⟨rfl, rfl, rfl, rfl⟩, fun pouts perrs => ⟨rfl, rfl, rfl, rfl⟩, ?_, ?_⟩
  · intro code souts serrs h
    refine ⟨?_, ?_, ?_, ?_⟩ <;>
      simp [spawnContainerAgent, claudeRunAgent, cuCloseHandler, claudeCloseHandler, h]
  · intro souts serrs h
    refine ⟨?_, ?_, ?_, ?_⟩ <;>
      simp [spawnContainerAgent, claudeRunAgent, cuCloseHandler, claudeCloseHandler, h]

/-- Witness for C1: each failure mode at a concrete input. -/
theorem C1_invoke_never_raises_witness :
    (spawnContainerAgent 4096 300000 none (ProcOutcome.spawnError "spawn docker ENOENT")).response.status
      = some "error"
    ∧ (spawnContainerAgent 4096 300000 none (ProcOutcome.timedOut [] [])).response.status
      = some "error"
    ∧ (spawnContainerAgent 4096 300000 none (ProcOutcome.exited 1 [] [])).response.status
      = some "error"
    ∧ (claudeRunAgent 4096 300000 none (ProcOutcome.exited 0 ["not json".data] [])).response.status
      = some "error" := by
  have h := C1_invoke_never_raises 4096 300000 none none
  exact ⟨(h.1 "spawn docker ENOENT").1,
         (h.2.1 [] []).1,
         (h.2.2.1 1 [] [] (by decide)).1,
         (h.2.2.2 ["not json".data] [] (by decide)).2.2.1⟩

/-- Claim C3 as stated is false for `ClaudeProvider.runAgent`: with a
per-group timeout override of 100 ms the timer applies 100 ms, but the error
message reports the default `CONTAINER_TIMEOUT` (300000 ms), not the applied
duration. -/
theorem C3_counterexample :
    (claudeRunAgent 1048576 CONTAINER_TIMEOUT (some 100)
        (ProcOutcome.timedOut [] [])).response.error
      = some "Claude container timed out after 300000ms"
    ∧ jsOrNat (some 100) CONTAINER_TIMEOUT = 100
    ∧ (100 : Nat) ≠ 300000 := by
  exact ⟨rfl, rfl, by decide⟩

/-- Claim C3 (amended): on timeout the process is force-killed and the call
resolves with `status='error'` and a message "timed out after Nms",
regardless of partial buffered output; in `spawnContainerAgent` N is the
applied timeout (per-invocation override when present and non-zero, else the
default), while in `ClaudeProvider.runAgent` N is always the default
`CONTAINER_TIMEOUT`, even when a per-group override was applied as the
timer duration. -/
theorem C3_timeout_reporting (cap dflt : Nat) (cfgT gT : Option Nat)
    (pouts perrs : List (List Char)) :
    (spawnContainerAgent cap dflt cfgT (ProcOutcome.timedOut pouts perrs)).killed = true
    ∧ (spawnContainerAgent cap dflt cfgT (ProcOutcome.timedOut pouts perrs)).response.status
      = some "error"
    ∧ (spawnContainerAgent cap dflt cfgT (ProcOutcome.timedOut pouts perrs)).response.error
      = some ("Container timed out after " ++ toString (jsOrNat cfgT dflt) ++ "ms")
    ∧ (claudeRunAgent cap dflt gT (ProcOutcome.timedOut pouts perrs)).killed = true
    ∧ (claudeRunAgent cap dflt gT (ProcOutcome.timedOut pouts perrs)).response.status
      = some "error"
    ∧ (claudeRunAgent cap dflt gT (ProcOutcome.timedOut pouts perrs)).response.error
      = some ("Claude container timed out after " ++ toString dflt ++ "ms") := by
  exact ⟨rfl, rfl, rfl, rfl, rfl, rfl⟩

/-- Claim C4: a non-zero exit code always yields `status='error'` — even when
the captured stdout contains a well-formed success payload between sentinels
(the response does not depend on stdout at all) — and the error detail
carries the tail (last 1000 characters) of the capped stderr buffer. -/
theorem C4_nonzero_exit (cap dflt : Nat) (cfgT gT : Option Nat) (code : Int)
    (souts serrs : List (List Char)) (h : code ≠ 0) :
    (spawnContainerAgent cap dflt cfgT (ProcOutcome.exited code souts serrs)).response.status
      = some "error"
    ∧ (spawnContainerAgent cap dflt cfgT (ProcOutcome.exited code souts serrs)).response.error
      = some ("Container exited with code " ++ toString code ++ ".\n\nLast stderr:\n"
          ++ String.mk (takeRight (accumChunks cap serrs).acc 1000))
    ∧ (claudeRunAgent cap dflt gT (ProcOutcome.exited code souts serrs)).response.status
      = some "error"
    ∧ (claudeRunAgent cap dflt gT (ProcOutcome.exited code souts serrs)).response.error
      = some ("Claude container exited with code " ++ toString code ++ ".\n\nLast stderr:\n"
          ++ String.mk (takeRight (accumChunks cap serrs).acc 1000))
    ∧ (∀ souts',
        spawnContainerAgent cap dflt cfgT (ProcOutcome.exited code souts' serrs)
          = spawnContainerAgent cap dflt cfgT (ProcOutcome.exited code souts serrs)) := by
  refine ⟨?_, ?_, ?_, ?_, ?_⟩ <;>
    simp [spawnContainerAgent, claudeRunAgent, cuCloseHandler, claudeCloseHandler, h]

/-- Witness for C4: exit code 1 with a well-formed success payload between
sentinels on stdout still yields `status='error'`. -/
theorem C4_nonzero_exit_witness :
    (spawnContainerAgent 1048576 300000 none
        (ProcOutcome.exited 1
          [(OUTPUT_START_MARKER ++ "\n" ++ scenarioSuccessJson ++ "\n"
              ++ OUTPUT_END_MARKER).data]
          ["boom".data])).response.status
      = some "error"
    ∧ (spawnContainerAgent 1048576 300000 none
        (ProcOutcome.exited 1
          [(OUTPUT_START_MARKER ++ "\n" ++ scenarioSuccessJson ++ "\n"
              ++ OUTPUT_END_MARKER).data]
          ["boom".data])).response.error
      = some ("Container exited with code 1.\n\nLast stderr:\n"
          ++ String.mk (takeRight (accumChunks 1048576 ["boom".data]).acc 1000)) := by
  have h := C4_nonzero_exit 1048576 300000 none none 1
    [(OUTPUT_START_MARKER ++ "\n" ++ scenarioSuccessJson ++ "\n" ++ OUTPUT_END_MARKER).data]
    ["boom".data] (by decide)
  exact ⟨h.1, h.2.1⟩

/-- Claim C5: the accumulated stdout buffer never exceeds the output cap;
once truncated, further data is discarded while draining continues; the
truncation flag overflows exactly when the stream exceeds the cap; and
truncation is not reported as an error — the resolved response depends only
on the capped accumulated text, never on the flag.  The stderr buffer is
capped separately by the same mechanism. -/
theorem C5_output_cap (cap dflt : Nat) (cfgT gT : Option Nat) (code : Int)
    (souts serrs : List (List Char)) (b : StreamBuf) (ch : List Char) :
    (accumChunks cap souts).acc.length ≤ cap
    ∧ (accumChunks cap serrs).acc.length ≤ cap
    ∧ (b.truncated = true → pushChunk cap b ch = b)
    ∧ (cap < (souts.map List.length).sum → (accumChunks cap souts).truncated = true)
    ∧ (∀ souts' serrs',
        (accumChunks cap souts').acc = (accumChunks cap souts).acc →
        (accumChunks cap serrs').acc = (accumChunks cap serrs).acc →
        spawnContainerAgent cap dflt cfgT (ProcOutcome.exited code souts' serrs')
          = spawnContainerAgent cap dflt cfgT (ProcOutcome.exited code souts serrs)
        ∧ claudeRunAgent cap dflt gT (ProcOutcome.exited code souts' serrs')
          = claudeRunAgent cap dflt gT (ProcOutcome.exited code souts serrs)) := by
  refine ⟨foldl_pushChunk_acc_le cap souts _ (by simp),
         foldl_pushChunk_acc_le cap serrs _ (by simp),
         pushChunk_truncated_id cap b ch,
         ?_, ?_⟩
  · intro hover
    apply foldl_pushChunk_truncated_of_overflow cap souts ⟨[], false⟩ rfl (by simp)
    simpa using hover
  · intro souts' serrs' h1 h2
    constructor <;> simp [spawnContainerAgent, claudeRunAgent, h1, h2]

/-- Witness for C5 at a concrete overflow: cap 5, chunks "ab" then "cdefg". -/
theorem C5_output_cap_witness :
    (accumChunks 5 ["ab".data, "cdefg".data]).acc.length ≤ 5
    ∧ pushChunk 5 ⟨"abcde".data, true⟩ "fgh".data = ⟨"abcde".data, true⟩
    ∧ (accumChunks 5 ["ab".data, "cdefg".data]).truncated = true := by
  have h := C5_output_cap 5 300000 none none 0 ["ab".data, "cdefg".data] []
    ⟨"abcde".data, true⟩ "fgh".data
  exact ⟨h.1, h.2.2.1 rfl, h.2.2.2.1 (by decide)⟩

/-! ## List lemmas for the payload-extraction claim (shared) -/

theorem dropWhile_dropWhile_self {α : Type} (p : α → Bool) (l : List α) :
    (l.dropWhile p).dropWhile p = l.dropWhile p := by
  induction l with
  | nil => rfl
  | cons c rest ih =>
    by_cases h : p c
    · simp [List.dropWhile_cons, h, ih]
    · simp [List.dropWhile_cons, h]

theorem takeWhile_eq_self_of_all {α : Type} (p : α → Bool) (l : List α)
    (h : ∀ x ∈ l, p x = true) : l.takeWhile p = l := by
  induction l with
  | nil => rfl
  | cons c rest ih =>
    have hc : p c = true := h c (List.mem_cons_self c rest)
    simp [List.takeWhile_cons, hc, ih fun x hx => h x (List.mem_cons_of_mem c hx)]

theorem takeWhile_length_ne {α : Type} (p : α → Bool) (l : List α) (x : α)
    (hx : x ∈ l) (hpx : p x = false) : (l.takeWhile p).length ≠ l.length := by
  intro hlen
  have heq : l.takeWhile p = l :=
    (List.takeWhile_prefix p).eq_of_length hlen
  have : p x = true := List.mem_takeWhile_imp (heq ▸ hx)
  rw [hpx] at this
  exact Bool.false_ne_true this

theorem splitLines_ne_nil (l : List Char) : splitLines l ≠ [] := by
  cases l with
  | nil => simp [splitLines]
  | cons c rest =>
    by_cases h : c = '\n'
    · simp [splitLines, h]
    · rcases hS : splitLines rest with _ | ⟨a, as⟩
      · exact absurd hS (splitLines_ne_nil rest)
      · simp [splitLines, h, hS]

theorem getLastD_irrel {α : Type} (l : List α) (d d' : α) (h : l ≠ []) :
    l.getLastD d = l.getLastD d' := by
  rw [List.getLastD_eq_getLast?, List.getLastD_eq_getLast?]
  rcases hg : l.getLast? with _ | a
  · exact absurd (List.getLast?_eq_none_iff.mp hg) h
  · rfl

theorem getLastD_concat {α : Type} (l : List α) (a d : α) :
    (l ++ [a]).getLastD d = a := by
  rw [List.getLastD_eq_getLast?, List.getLast?_concat]
  rfl

theorem splitLines_of_not_mem (l : List Char) (h : '\n' ∉ l) :
    splitLines l = [l] := by
  induction l with
  | nil => rfl
  | cons c rest ih =>
    have hc : c ≠ '\n' := fun hc => h (hc ▸ List.mem_cons_self c rest)
    have hrest : '\n' ∉ rest := fun hr => h (List.mem_cons_of_mem c hr)
    simp [splitLines, hc, ih hrest]

theorem splitLines_singleton_no_nl (l : List Char) :
    ∀ m, splitLines l = [m] → '\n' ∉ l := by
  induction l with
  | nil => intro m _; simp
  | cons c rest ih =>
    intro m hm
    by_cases hc : c = '\n'
    · rw [splitLines, if_pos hc] at hm
      exact absurd (List.cons_eq_cons.mp hm).2 (splitLines_ne_nil rest)
    · rcases hS : splitLines rest with _ | ⟨a, as⟩
      · exact absurd hS (splitLines_ne_nil rest)
      · rw [splitLines, if_neg hc, hS] at hm
        have has : as = [] := (List.cons_eq_cons.mp hm).2
        intro hmem
        rcases List.mem_cons.mp hmem with h1 | h2
        · exact hc h1.symm
        · exact ih a (by rw [hS, has]) h2

theorem lastLineOf_eq_rtake (l : List Char) :
    lastLineOf l = (l.reverse.takeWhile notNl).reverse := by
  induction l with
  | nil => rfl
  | cons c rest ih =>
    by_cases hc : c = '\n'
    · have lhs : lastLineOf (c :: rest) = lastLineOf rest := by
        simp only [lastLineOf, splitLines, if_pos hc, List.getLastD_cons]
      rw [lhs, ih, List.reverse_cons, List.takeWhile_append]
      have hnl : notNl c = false := by simp [notNl, hc]
      split
      · next hcond =>
          have h1 : [c].takeWhile notNl = [] := by simp [List.takeWhile_cons, hnl]
          have h2 : rest.reverse.takeWhile notNl = rest.reverse :=
            (List.takeWhile_prefix notNl).eq_of_length hcond
          rw [h1, List.append_nil, h2]
      · rfl
    · have hnlc : notNl c = true := by simp [notNl, hc]
      by_cases hmem : '\n' ∈ rest
      · rcases hS : splitLines rest with _ | ⟨h0, t0⟩
        · exact absurd hS (splitLines_ne_nil rest)
        · have ht0 : t0 ≠ [] := by
            intro h
            exact splitLines_singleton_no_nl rest h0 (by rw [hS, h]) hmem
          have lhs : lastLineOf (c :: rest) = lastLineOf rest := by
            simp only [lastLineOf, splitLines, if_neg hc, hS, List.getLastD_cons]
            exact getLastD_irrel t0 _ _ ht0
          rw [lhs, ih, List.reverse_cons, List.takeWhile_append]
          have hcond : ¬((rest.reverse.takeWhile notNl).length = rest.reverse.length) := by
            apply takeWhile_length_ne notNl rest.reverse '\n' (by simpa using hmem)
            simp [notNl]
          rw [if_neg hcond]
      · have lhs : lastLineOf (c :: rest) = c :: rest := by
          simp only [lastLineOf, splitLines, if_neg hc, splitLines_of_not_mem rest hmem]
          rfl
        rw [lhs, List.reverse_cons, List.takeWhile_append]
        have hall : rest.reverse.takeWhile notNl = rest.reverse := by
          apply takeWhile_eq_self_of_all
          intro x hx
          have hne : x ≠ '\n' := fun h => hmem (h ▸ List.mem_reverse.mp hx)
          simp [notNl, hne]
        rw [if_pos (by rw [hall])]
        have h1 : [c].takeWhile notNl = [c] := by simp [List.takeWhile_cons, hnlc]
        rw [h1]
        simp

theorem splitLines_append_nl (l : List Char) :
    splitLines (l ++ ['\n']) = splitLines l ++ [[]] := by
  induction l with
  | nil => rfl
  | cons c rest ih =>
    by_cases hc : c = '\n'
    · simp [splitLines, hc, ih]
    · rcases hS : splitLines rest with _ | ⟨h0, t0⟩
      · exact absurd hS (splitLines_ne_nil rest)
      · have hih : splitLines (rest ++ ['\n']) = h0 :: (t0 ++ [[]]) := by
          rw [ih, hS]; rfl
        simp [splitLines, hc, hih, hS]

theorem splitLines_append_other (l : List Char) (c : Char) (hc : ¬(c = '\n')) :
    splitLines (l ++ [c]) = (splitLines l).dropLast ++ [lastLineOf l ++ [c]] := by
  induction l with
  | nil => simp [splitLines, hc, lastLineOf]
  | cons d rest ih =>
    by_cases hd : d = '\n'
    · rcases hS : splitLines rest with _ | ⟨h0, t0⟩
      · exact absurd hS (splitLines_ne_nil rest)
      · have hlast : lastLineOf (d :: rest) = lastLineOf rest := by
          simp only [lastLineOf, splitLines, if_pos hd, List.getLastD_cons]
        have hl : splitLines ((d :: rest) ++ [c]) = [] :: splitLines (rest ++ [c]) := by
          simp [splitLines, hd]
        rw [hl, ih, hlast]
        have hsp : splitLines (d :: rest) = [] :: splitLines rest := by
          simp [splitLines, hd]
        rw [hsp, hS]
        rfl
    · rcases hS : splitLines rest with _ | ⟨h0, t0⟩
      · exact absurd hS (splitLines_ne_nil rest)
      · cases t0 with
        | nil =>
          have hlr : lastLineOf rest = h0 := by
            simp only [lastLineOf, hS, List.getLastD_cons]; rfl
          have hih : splitLines (rest ++ [c]) = [h0 ++ [c]] := by
            rw [ih, hS, hlr]; rfl
          have hld : lastLineOf (d :: rest) = d :: h0 := by
            simp only [lastLineOf, splitLines, if_neg hd, hS, List.getLastD_cons]; rfl
          simp [splitLines, hd, hih, hS, hld]
        | cons t1 ts =>
          have hlr : lastLineOf rest = (t1 :: ts).getLastD h0 := by
            simp only [lastLineOf, hS, List.getLastD_cons]
          have hih : splitLines (rest ++ [c])
              = h0 :: (((t1 :: ts).dropLast) ++ [lastLineOf rest ++ [c]]) := by
            rw [ih, hS]; rfl
          have hld : lastLineOf (d :: rest) = (t1 :: ts).getLastD (d :: h0) := by
            simp only [lastLineOf, splitLines, if_neg hd, hS, List.getLastD_cons]
          have hirrel : (t1 :: ts).getLastD (d :: h0) = (t1 :: ts).getLastD h0 :=
            getLastD_irrel _ _ _ (by simp)
          have hl : splitLines ((d :: rest) ++ [c])
              = (d :: h0) :: ((t1 :: ts).dropLast ++ [lastLineOf rest ++ [c]]) := by
            simp [splitLines, hd, hih]
          rw [hl, hld, hirrel, ← hlr]
          have hsp : splitLines (d :: rest) = (d :: h0) :: t1 :: ts := by
            simp [splitLines, hd, hS]
          rw [hsp]
          rfl

theorem getLastD_filter_of_pos {α : Type} (p : α → Bool) (S : List α) (d : α)
    (hS : S ≠ []) (hp : p (S.getLastD d) = true) :
    (S.filter p).getLastD d = S.getLastD d := by
  have ha := List.getLast?_eq_getLast S hS
  have hSd : S.getLastD d = S.getLast hS := by
    rw [List.getLastD_eq_getLast?, ha]; rfl
  have hdecomp : S.dropLast ++ [S.getLast hS] = S := List.dropLast_append_getLast hS
  rw [hSd] at hp ⊢
  conv_lhs => rw [← hdecomp]
  rw [List.filter_append]
  have hfa : [S.getLast hS].filter p = [S.getLast hS] := by simp [hp]
  rw [hfa, getLastD_concat]

theorem filter_of_last_neg {α : Type} (p : α → Bool) (S : List α) (d : α)
    (hS : S ≠ []) (hp : p (S.getLastD d) = false) :
    S.filter p = S.dropLast.filter p := by
  have ha := List.getLast?_eq_getLast S hS
  have hSd : S.getLastD d = S.getLast hS := by
    rw [List.getLastD_eq_getLast?, ha]; rfl
  have hdecomp : S.dropLast ++ [S.getLast hS] = S := List.dropLast_append_getLast hS
  rw [hSd] at hp
  conv_lhs => rw [← hdecomp]
  rw [List.filter_append]
  simp [hp]

theorem trimR_append_ws (z : List Char) (c : Char) (hc : wsChar c = true) :
    trimR (z ++ [c]) = trimR z := by
  simp [trimR, trimL, List.dropWhile_cons, hc]

theorem trimR_append_content (z : List Char) (c : Char) (hc : wsChar c = false) :
    trimR (z ++ [c]) = z ++ [c] := by
  simp [trimR, trimL, List.dropWhile_cons, hc]

theorem trim_append_ws (x : List Char) (c : Char) (hc : wsChar c = true) :
    trim (x ++ [c]) = trim x := by
  unfold trim
  by_cases hx : trimL x = []
  · have h1 : trimL (x ++ [c]) = [] := by
      simp only [trimL] at hx ⊢
      rw [List.dropWhile_append, hx]
      simp [List.dropWhile_cons, hc]
    rw [h1, hx]
  · have h1 : trimL (x ++ [c]) = trimL x ++ [c] := by
      simp only [trimL] at hx ⊢
      rw [List.dropWhile_append]
      simp [hx]
    rw [h1, trimR_append_ws _ _ hc]

theorem trim_append_content (x : List Char) (c : Char) (hc : wsChar c = false) :
    trim (x ++ [c]) = trimL (x ++ [c]) := by
  unfold trim
  by_cases hx : trimL x = []
  · have h1 : trimL (x ++ [c]) = [c] := by
      simp only [trimL] at hx ⊢
      rw [List.dropWhile_append, hx]
      simp [List.dropWhile_cons, hc]
    rw [h1]
    have : trimR [c] = [c] := by
      have := trimR_append_content [] c hc
      simpa using this
    rw [this]
  · have h1 : trimL (x ++ [c]) = trimL x ++ [c] := by
      simp only [trimL] at hx ⊢
      rw [List.dropWhile_append]
      simp [hx]
    rw [h1, trimR_append_content _ _ hc]

theorem trimL_lastLineOf_trim (l : List Char) :
    trimL (lastLineOf (trim l)) =
      trimL (((l.reverse.dropWhile wsChar).takeWhile notNl).reverse) := by
  have hrev : (trim l).reverse = trimL ((trimL l).reverse) := by
    simp [trim, trimR]
  rw [lastLineOf_eq_rtake, hrev]
  have hdecomp : l.takeWhile wsChar ++ l.dropWhile wsChar = l :=
    List.takeWhile_append_dropWhile wsChar l
  by_cases hcore : l.dropWhile wsChar = []
  · have hlft : trimL ((trimL l).reverse) = [] := by
      simp [trimL, hcore]
    have hrgt : l.reverse.dropWhile wsChar = [] := by
      rw [List.dropWhile_eq_nil_iff]
      intro x hx
      have hx' : x ∈ l := List.mem_reverse.mp hx
      rw [← hdecomp, hcore, List.append_nil] at hx'
      exact List.mem_takeWhile_imp hx'
    rw [hlft, hrgt]
  · have hrevl : l.reverse = (l.dropWhile wsChar).reverse ++ (l.takeWhile wsChar).reverse := by
      conv_lhs => rw [← hdecomp]
      rw [List.reverse_append]
    have hEne : (l.dropWhile wsChar).reverse.dropWhile wsChar ≠ [] := by
      rw [Ne, List.dropWhile_eq_nil_iff]
      intro hall
      have hhead : wsChar ((l.dropWhile wsChar).head hcore) = false :=
        List.head_dropWhile_not wsChar l hcore
      have hmem : (l.dropWhile wsChar).head hcore ∈ (l.dropWhile wsChar).reverse :=
        List.mem_reverse.mpr (List.head_mem hcore)
      rw [hall _ hmem] at hhead
      exact absurd hhead (by decide)
    have hD : l.reverse.dropWhile wsChar
        = (l.dropWhile wsChar).reverse.dropWhile wsChar ++ (l.takeWhile wsChar).reverse := by
      rw [hrevl, List.dropWhile_append]
      simp [List.isEmpty_iff, hEne]
    have hE : trimL ((trimL l).reverse) = (l.dropWhile wsChar).reverse.dropWhile wsChar := by
      simp [trimL]
    rw [hE, hD]
    set E := (l.dropWhile wsChar).reverse.dropWhile wsChar with hEdef
    rw [List.takeWhile_append]
    by_cases hcond : (E.takeWhile notNl).length = E.length
    · rw [if_pos hcond]
      have hEtake : E.takeWhile notNl = E :=
        (List.takeWhile_prefix notNl).eq_of_length hcond
      rw [hEtake]
      have hWws : ∀ x ∈ ((l.takeWhile wsChar).reverse.takeWhile notNl), wsChar x = true := by
        intro x hx
        have hx1 : x ∈ (l.takeWhile wsChar).reverse :=
          (List.takeWhile_prefix notNl).sublist.subset hx
        exact List.mem_takeWhile_imp (List.mem_reverse.mp hx1)
      rw [List.reverse_append]
      simp only [trimL]
      rw [List.dropWhile_append]
      have hWnil : ((l.takeWhile wsChar).reverse.takeWhile notNl).reverse.dropWhile wsChar
          = [] := by
        rw [List.dropWhile_eq_nil_iff]
        intro x hx
        exact hWws x (List.mem_reverse.mp hx)
      simp [List.isEmpty_iff, hWnil]
    · rw [if_neg hcond]

theorem trim_lastNonEmptyLine (l : List Char) :
    trim (lastNonEmptyLine l) =
      trimL (((l.reverse.dropWhile wsChar).takeWhile notNl).reverse) := by
  induction l using List.reverseRecOn with
  | nil => rfl
  | append_singleton l c ih =>
    have hrev : (l ++ [c]).reverse = c :: l.reverse := by simp
    by_cases hws : wsChar c = true
    · have hRHS : ((l ++ [c]).reverse.dropWhile wsChar).takeWhile notNl
          = (l.reverse.dropWhile wsChar).takeWhile notNl := by
        rw [hrev, List.dropWhile_cons, if_pos hws]
      rw [hRHS, ← ih]
      by_cases hnl : c = '\n'
      · have hsp : splitLines (l ++ [c]) = splitLines l ++ [[]] := by
          rw [hnl]; exact splitLines_append_nl l
        have hLNE : lastNonEmptyLine (l ++ [c]) = lastNonEmptyLine l := by
          simp [lastNonEmptyLine, hsp, List.filter_append, hasContent]
        rw [hLNE]
      · have hsp := splitLines_append_other l c hnl
        have hcontent : hasContent (lastLineOf l ++ [c]) = hasContent (lastLineOf l) := by
          simp [hasContent, List.any_append, nonWs, hws]
        by_cases hlast : hasContent (lastLineOf l) = true
        · have hLNE : lastNonEmptyLine (l ++ [c]) = lastLineOf l ++ [c] := by
            simp only [lastNonEmptyLine, hsp, List.filter_append]
            rw [show (List.filter hasContent [lastLineOf l ++ [c]])
                = [lastLineOf l ++ [c]] from by simp [hcontent, hlast]]
            exact getLastD_concat _ _ _
          have hLNEl : lastNonEmptyLine l = lastLineOf l := by
            simp only [lastNonEmptyLine, lastLineOf]
            exact getLastD_filter_of_pos hasContent (splitLines l) []
              (splitLines_ne_nil l) (by rw [← lastLineOf]; exact hlast)
          rw [hLNE, trim_append_ws _ _ hws, hLNEl]
        · have hfalse : hasContent (lastLineOf l) = false := Bool.eq_false_iff.mpr hlast
          have hbfalse : hasContent (lastLineOf l ++ [c]) = false := by
            rw [hcontent]; exact hfalse
          have hfilterS : (splitLines l).filter hasContent
              = (splitLines l).dropLast.filter hasContent := by
            apply filter_of_last_neg hasContent (splitLines l) [] (splitLines_ne_nil l)
            rw [← lastLineOf]
            exact hfalse
          have hLNE : lastNonEmptyLine (l ++ [c]) = lastNonEmptyLine l := by
            simp only [lastNonEmptyLine, hsp, List.filter_append]
            rw [show (List.filter hasContent [lastLineOf l ++ [c]]) = [] from by
              simp [hbfalse]]
            rw [List.append_nil, ← hfilterS]
          rw [hLNE]
    · have hws' : wsChar c = false := Bool.eq_false_iff.mpr hws
      have hnl : ¬(c = '\n') := by
        intro h
        rw [h] at hws'
        simp [wsChar] at hws'
      have hsp := splitLines_append_other l c hnl
      have hbtrue : hasContent (lastLineOf l ++ [c]) = true := by
        simp [hasContent, List.any_append, nonWs, hws']
      have hLNE : lastNonEmptyLine (l ++ [c]) = lastLineOf l ++ [c] := by
        simp only [lastNonEmptyLine, hsp, List.filter_append]
        rw [show (List.filter hasContent [lastLineOf l ++ [c]])
            = [lastLineOf l ++ [c]] from by simp [hbtrue]]
        exact getLastD_concat _ _ _
      have hnlc : notNl c = true := by simp [notNl, hnl]
      have hRHS : (((l ++ [c]).reverse.dropWhile wsChar).takeWhile notNl).reverse
          = lastLineOf l ++ [c] := by
        rw [hrev, List.dropWhile_cons, if_neg hws, List.takeWhile_cons, if_pos hnlc,
          List.reverse_cons, ← lastLineOf_eq_rtake]
      rw [hLNE, hRHS, trim_append_content _ _ hws']

theorem trimL_extract_fallback (l : List Char) :
    trimL (lastLineOf (trim l)) = trim (lastNonEmptyLine l) := by
  rw [trimL_lastLineOf_trim, trim_lastNonEmptyLine]

theorem skipWs_trimL (x : List Char) : skipWs (trimL x) = skipWs x := by
  simp [skipWs, trimL, dropWhile_dropWhile_self]

theorem parseFlatJson_trimL (x : List Char) :
    parseFlatJson (trimL x) = parseFlatJson x := by
  unfold parseFlatJson
  rw [skipWs_trimL]

theorem parseAgentResponse_trimL (x : List Char) :
    parseAgentResponse (trimL x) = parseAgentResponse x := by
  simp [parseAgentResponse, parseFlatJson_trimL]

theorem extractJsonLine_fallback (stdout : List Char)
    (h : sentinelsFound stdout = false) :
    extractJsonLine stdout = lastLineOf (trim stdout) := by
  rcases h1 : idxOf? stdout OUTPUT_START_MARKER.data with _ | si
  · simp [extractJsonLine, h1]
  · rcases h2 : idxOf? stdout OUTPUT_END_MARKER.data with _ | ei
    · simp [extractJsonLine, h1, h2]
    · have hlt : ¬(si < ei) := by
        simp only [sentinelsFound, h1, h2] at h
        exact of_decide_eq_false h
      simp [extractJsonLine, h1, h2, hlt]

theorem parse_extract_fallback (stdout : List Char)
    (h : sentinelsFound stdout = false) :
    parseAgentResponse (extractJsonLine stdout)
      = parseAgentResponse (trim (lastNonEmptyLine stdout)) := by
  rw [extractJsonLine_fallback stdout h, ← trimL_extract_fallback,
    parseAgentResponse_trimL]

/-- Claim C2: for an invocation whose process exits 0 — (i) when both
sentinel marker lines occur in the captured stdout (first occurrences) with
the end marker strictly after the start marker, the extracted payload is the
text between them, trimmed; (ii) otherwise the payload parsed is the last
non-empty line of stdout (up to JSON-insignificant surrounding whitespace);
(iii) on a successful parse both `runAgent` implementations return exactly
the parsed JSON's fields as the `AgentResponse`; (iv) a parse failure yields
`status='error'` with a snippet of the offending payload in the error
detail. -/
theorem C2_result_extraction (cap dflt : Nat) (cfgT gT : Option Nat)
    (souts serrs : List (List Char)) :
    (∀ si ei,
      idxOf? (accumChunks cap souts).acc OUTPUT_START_MARKER.data = some si →
      idxOf? (accumChunks cap souts).acc OUTPUT_END_MARKER.data = some ei →
      si < ei →
      extractJsonLine (accumChunks cap souts).acc
        = trim (sliceList (accumChunks cap souts).acc
            (si + OUTPUT_START_MARKER.data.length) ei))
    ∧ (sentinelsFound (accumChunks cap souts).acc = false →
      parseAgentResponse (extractJsonLine (accumChunks cap souts).acc)
        = parseAgentResponse (trim (lastNonEmptyLine (accumChunks cap souts).acc)))
    ∧ (∀ r, parseAgentResponse (extractJsonLine (accumChunks cap souts).acc) = some r →
      (spawnContainerAgent cap dflt cfgT (ProcOutcome.exited 0 souts serrs)).response = r
      ∧ (claudeRunAgent cap dflt gT (ProcOutcome.exited 0 souts serrs)).response = r)
    ∧ (parseAgentResponse (extractJsonLine (accumChunks cap souts).acc) = none →
      (spawnContainerAgent cap dflt cfgT (ProcOutcome.exited 0 souts serrs)).response.status
        = some "error"
      ∧ (spawnContainerAgent cap dflt cfgT (ProcOutcome.exited 0 souts serrs)).response.error
        = some ("Failed to parse container output: "
            ++ jsonParseErrorMessage (extractJsonLine (accumChunks cap souts).acc))
      ∧ (claudeRunAgent cap dflt gT (ProcOutcome.exited 0 souts serrs)).response.status
        = some "error"
      ∧ (claudeRunAgent cap dflt gT (ProcOutcome.exited 0 souts serrs)).response.error
        = some ("Failed to parse Claude output: "
            ++ jsonParseErrorMessage (extractJsonLine (accumChunks cap souts).acc))) := by
  refine ⟨?_, parse_extract_fallback _, ?_, ?_⟩
  · intro si ei h1 h2 hlt
    simp [extractJsonLine, h1, h2, hlt]
  · intro r hr
    constructor <;>
      simp [spawnContainerAgent, claudeRunAgent, cuCloseHandler, claudeCloseHandler, hr]
  · intro hr
    refine ⟨?_, ?_, ?_, ?_⟩ <;>
      simp [spawnContainerAgent, claudeRunAgent, cuCloseHandler, claudeCloseHandler, hr]

/-- Witness for C2, including the spec's Scenario C: stdout with no sentinels
whose last line is `{"status":"success","result":"ok"}` produces
`status=success, result="ok"`, and an unparseable stdout produces an error. -/
theorem C2_result_extraction_witness :
    sentinelsFound (accumChunks 1048576 [("some log\n" ++ scenarioSuccessJson).data]).acc
      = false
    ∧ (spawnContainerAgent 1048576 300000 none
        (ProcOutcome.exited 0 [("some log\n" ++ scenarioSuccessJson).data] [])).response
      = { status := some "success", result := some "ok",
          newSessionId := none, error := none }
    ∧ parseAgentResponse
        (trim (lastNonEmptyLine
          (accumChunks 1048576 [("some log\n" ++ scenarioSuccessJson).data]).acc))
      = some ({ status := some "success", result := some "ok",
                newSessionId := none, error := none } : AgentResponse)
    ∧ (claudeRunAgent 1048576 300000 none
        (ProcOutcome.exited 0 ["not json".data] [])).response.status = some "error" := by
  have h := C2_result_extraction 1048576 300000 none none
    [("some log\n" ++ scenarioSuccessJson).data] []
  have h2 := C2_result_extraction 1048576 300000 none none ["not json".data] []
  refine ⟨by decide, ?_, ?_, ?_⟩
  · exact (h.2.2.1 _ (by decide)).1
  · exact (h.2.1 (by decide)).symm.trans (by decide)
  · exact (h2.2.2.2 (by decide)).2.2.1

end NanoClaw
